import Mathlib

/-!
Shallow embedding of the CLEAR hospital price finder's query engine
(docs/js/hospital-price-finder.js): geo radius filtering, chargemaster
loading/caching, regex-based querying with payer filtering, price
normalization and Medicare-ratio formatting, and ZIP normalization.

JavaScript numbers are modelled as rationals; `Option ℚ` models a number
that may be NaN (`none` = NaN). Regular-expression compilation, the
great-circle distance, and locale number rendering are kept abstract as
function parameters, since no claim depends on their internals.
-/

namespace CLEAR

/-- A JavaScript value sitting in a price field of a parsed chargemaster
record: a (finite) number — which also covers numeric strings, since the
coercions used by the source treat them alike — `null`, `undefined`, or a
non-numeric string (one that coerces to NaN). -/
inductive JVal where
  | num (q : ℚ)
  | null
  | undef
  | nonNum (s : String)
deriving DecidableEq

/-- JavaScript unary `+v` (Number coercion): `+null` is `0`, `+undefined`
is NaN, a non-numeric string is NaN. `none` models NaN. -/
def toNumPlus : JVal → Option ℚ
  | .num q => some q
  | .null => some 0
  | .undef => none
  | .nonNum _ => none

/-- JavaScript `parseFloat(v)`: unlike `+`, `parseFloat(null)` is NaN
(it parses the string "null"). -/
def parseFloatV : JVal → Option ℚ
  | .num q => some q
  | .null => none
  | .undef => none
  | .nonNum _ => none

/-- Truthiness of a JavaScript number: `0` and NaN are falsy. -/
def truthyNum : Option ℚ → Bool
  | some q => q != 0
  | none => false

/-- JavaScript `a || b` where `a` is a number (or NaN) and the whole chain
ends in a number: returns `a` when truthy, else `b`. -/
def jsOr (a : Option ℚ) (b : ℚ) : ℚ :=
  if truthyNum a then a.getD 0 else b

/-- Truthiness test `!amount || amount === 0` used by `formatPrice`:
false numbers `0`/NaN, `null`, `undefined` and the empty string are falsy. -/
def jsFalsy : JVal → Bool
  | .num q => q == 0
  | .null => true
  | .undef => true
  | .nonNum s => s == ""

/-- One parsed line of a hospital chargemaster file. String-valued fields
use `Option String` (`none` = absent/undefined); price fields are raw
JavaScript values. Unrecognized fields of the JSON line are not modelled
(the source never reads them). -/
structure PriceRecord where
  description : Option String
  code : Option String
  rc_code : Option String
  payer_name : Option String
  plan_name : Option String
  estimated_amount : JVal
  standard_charge_dollar : JVal
  standard_charge_gross : JVal
  standard_charge_min : JVal
  standard_charge_max : JVal
deriving DecidableEq

/-- `amountOf` (line 357): `+r.estimated_amount || +r.standard_charge_dollar
|| +r.standard_charge_gross || +r.standard_charge_min ||
+r.standard_charge_max || 0`. -/
def amountOf (r : PriceRecord) : ℚ :=
  jsOr (toNumPlus r.estimated_amount)
    (jsOr (toNumPlus r.standard_charge_dollar)
      (jsOr (toNumPlus r.standard_charge_gross)
        (jsOr (toNumPlus r.standard_charge_min)
          (jsOr (toNumPlus r.standard_charge_max) 0))))

/-- The five price fields of a record in the precedence order read by
`amountOf`. -/
def amountFields (r : PriceRecord) : List JVal :=
  [r.estimated_amount, r.standard_charge_dollar, r.standard_charge_gross,
   r.standard_charge_min, r.standard_charge_max]

/-- A JavaScript `||` chain over numeric coercions of a list of fields,
ending in `0`. `amountOf` is definitionally this chain over
`amountFields`. -/
def jsOrZero : List JVal → ℚ
  | [] => 0
  | v :: rest => jsOr (toNumPlus v) (jsOrZero rest)

/-- Modelled from the spec's words (for comparison with `amountOf`): "the
first non-zero numeric field in the precedence order …, and 0 when every
field is absent, null, zero, or non-numeric". -/
def firstNonZeroNumeric : List JVal → ℚ
  | [] => 0
  | v :: rest =>
    match toNumPlus v with
    | some q => if q = 0 then firstNonZeroNumeric rest else q
    | none => firstNonZeroNumeric rest

/-- The sort key of `queryHospitalJSON`'s comparator (lines 525-529):
`parseFloat(x.estimated_amount) || 0`. -/
def sortKey (r : PriceRecord) : ℚ :=
  jsOr (parseFloatV r.estimated_amount) 0

/-- The comparator `(a, b) => aAmount - bAmount` of `queryHospitalJSON`,
read as the ordering relation it induces on records. -/
def byKey (a b : PriceRecord) : Prop := sortKey a ≤ sortKey b

instance : DecidableRel byKey := fun a b =>
  inferInstanceAs (Decidable (sortKey a ≤ sortKey b))

instance : IsTotal PriceRecord byKey := ⟨fun a b => le_total (sortKey a) (sortKey b)⟩

instance : IsTrans PriceRecord byKey :=
  ⟨fun _ _ _ hab hbc => le_trans hab hbc⟩

/-- The active configuration mode (`currentConfigType`): service patterns
or revenue-code patterns. -/
inductive ConfigType where
  | service
  | revenueCode
deriving DecidableEq

/-- `getCodeField` (lines 387-390): `record.code || ''` — always the
primary `code` field, for display and Medicare ratio lookup, in every
configuration mode. -/
def getCodeField (r : PriceRecord) : String := r.code.getD ""

/-- The value of `record[codeField]` where `codeField =
getSearchCodeField()` (lines 396-398): the `code` field in service mode,
the `rc_code` field in revenue-code mode. -/
def getSearchCodeField (mode : ConfigType) (r : PriceRecord) : Option String :=
  match mode with
  | .service => r.code
  | .revenueCode => r.rc_code

/-- The regex match of `queryHospitalJSON` (lines 516-519): the compiled
expression (abstracted as a `String → Bool` predicate) tests
`record.description || ''` and `record[codeField] || ''`. -/
def matchesRegex (regex : String → Bool) (mode : ConfigType) (r : PriceRecord) : Bool :=
  regex (r.description.getD "") || regex ((getSearchCodeField mode r).getD "")

/-- The payer test of `queryHospitalJSON` (line 520): `!selectedPayer ||
(record.payer_name && record.payer_name === selectedPayer)`. `none` for
`selectedPayer` models the `null` of "All Payers". -/
def matchesPayer (selectedPayer : Option String) (r : PriceRecord) : Bool :=
  match selectedPayer with
  | none => true
  | some p =>
    match r.payer_name with
    | none => false
    | some pn => pn != "" && pn == p

/-- The mutable session state touched by `loadHospitalJSON`: the
`jsonCache` map (path → parsed records), and a fetch counter — the
fetch-count instrumentation the spec's cache property appeals to — that
counts how many times `fetch` has been issued. -/
structure CacheState where
  cache : List (String × List PriceRecord)
  fetchCount : ℕ
deriving DecidableEq

/-- `jsonCache.has/get` combined: the cached parse for a path, if any. -/
def lookupCache (st : CacheState) (path : String) : Option (List PriceRecord) :=
  (st.cache.find? (fun e => e.1 == path)).map (fun e => e.2)

/-- `loadHospitalJSON` (lines 459-494). The transport is a parameter
`net : String → Option (List (Option PriceRecord))`: `none` is a failed
fetch (non-success status or network error, both end in the catch block);
`some lines` is the fetched text already cut at line breaks, each line
being `some record` when it parses and `none` when `JSON.parse` throws
(such lines are dropped). An empty path returns `[]` before any work; a
cache hit returns the cached sequence untouched; otherwise one fetch is
counted, and only a successful fetch stores a cache entry. -/
def loadHospitalJSON (net : String → Option (List (Option PriceRecord)))
    (st : CacheState) (jsonPath : String) : List PriceRecord × CacheState :=
  if jsonPath = "" then ([], st)
  else
    match lookupCache st jsonPath with
    | some data => (data, st)
    | none =>
      match net jsonPath with
      | none => ([], { st with fetchCount := st.fetchCount + 1 })
      | some lines =>
        let jsonData := lines.filterMap id
        (jsonData, { cache := (jsonPath, jsonData) :: st.cache,
                     fetchCount := st.fetchCount + 1 })

/-- `queryHospitalJSON` (lines 503-537). Regex compilation is a parameter
`compile : String → Option (String → Bool)`: `none` models a pattern on
which `new RegExp` throws (a syntactically invalid expression). The
source builds the regex only after `await loadHospitalJSON(...)`, so the
load — fetch included — happens first; the thrown error then lands in
the catch block, which returns `[]`. A valid pattern filters the records,
keeps the first 50 matches in file order (`slice(0, 50)`), and sorts that
subset with the stable comparator on `parseFloat(estimated_amount) || 0`
(`Array.prototype.sort` is stable, modelled by `List.insertionSort`). -/
def queryHospitalJSON (net : String → Option (List (Option PriceRecord)))
    (compile : String → Option (String → Bool)) (mode : ConfigType)
    (st : CacheState) (jsonPath regexOrCode : String)
    (selectedPayer : Option String) : List PriceRecord × CacheState :=
  if jsonPath = "" || regexOrCode = "" then ([], st)
  else
    let loaded := loadHospitalJSON net st jsonPath
    match compile regexOrCode with
    | none => ([], loaded.2)
    | some regex =>
      let ms := (loaded.1.filter
        (fun r => matchesRegex regex mode r && matchesPayer selectedPayer r)).take 50
      (ms.insertionSort byKey, loaded.2)

/-- JavaScript division of a possibly-NaN numerator by a (positive)
rate: NaN propagates. -/
def jsDiv (a : Option ℚ) (b : ℚ) : Option ℚ := a.map (fun q => q / b)

/-- The integer nearest `100 * q` (half rounds up), written as a floor
division on the numerator and denominator so that it evaluates by kernel
reduction. -/
def roundHundredths (q : ℚ) : ℤ := Int.fdiv (200 * q.num + q.den) (2 * q.den)

/-- A rendering of `q.toFixed(2)`: the value rounded to hundredths,
written with exactly two decimal places. -/
def fixed2 (q : ℚ) : String :=
  let m : ℤ := roundHundredths q
  let frac : ℕ := m.natAbs % 100
  (if m < 0 then "-" else "") ++ toString (m.natAbs / 100) ++ "." ++
    (if frac < 10 then "0" else "") ++ toString frac

/-- `(amount / medicareRate).toFixed(2)` where the numerator may be NaN. -/
def toFixed2J : Option ℚ → String
  | none => "NaN"
  | some q => fixed2 q

/-- `formatPrice` (lines 366-380). `cmsRate` is the Medicare rate map
(`cmsRate.get(String(code))`, `none` = absent code); `fmtLoc` abstracts
`Number(amount).toLocaleString()`. Output is the `{ price, ratio }` pair
of strings. A falsy amount (`!amount || amount === 0`) short-circuits to
`("N/A", "N/A")`; otherwise the ratio is a two-decimal multiplier string
when the code is non-empty and its rate (`cmsRate.get(...) || 0`) is
strictly positive, and the string `"N/A"` in every other case. -/
def formatPrice (cmsRate : String → Option ℚ) (fmtLoc : Option ℚ → String)
    (amount : JVal) (code : String) : String × String :=
  if jsFalsy amount then ("N/A", "N/A")
  else
    let price := "$" ++ fmtLoc (toNumPlus amount)
    let medicareRate : ℚ := (cmsRate code).getD 0
    let ratioStr : String :=
      if code ≠ "" ∧ 0 < medicareRate then
        toFixed2J (jsDiv (toNumPlus amount) medicareRate) ++ "x"
      else "N/A"
    (price, ratioStr)

/-- One row of the price table `generatePriceTable` builds: the label
("Estimate"/"Minimum"/"Maximum") and the formatted price and ratio
strings. -/
structure PriceRow where
  label : String
  price : String
  ratioStr : String
deriving DecidableEq

/-- JavaScript `v != null` (loose): false exactly for `null` and
`undefined`. -/
def presentJS : JVal → Bool
  | .null => false
  | .undef => false
  | _ => true

/-- The rows of `generatePriceTable` (lines 405-421): one row per present
price field (`!= null`), each formatted by `formatPrice` with the code
`getCodeField(record)` — the primary `code` field, whatever the
configuration mode. -/
def generatePriceTable (cmsRate : String → Option ℚ) (fmtLoc : Option ℚ → String)
    (r : PriceRecord) : List PriceRow :=
  let code := getCodeField r
  (if presentJS r.estimated_amount then
    [⟨"Estimate", (formatPrice cmsRate fmtLoc r.estimated_amount code).1,
      (formatPrice cmsRate fmtLoc r.estimated_amount code).2⟩] else []) ++
  (if presentJS r.standard_charge_min then
    [⟨"Minimum", (formatPrice cmsRate fmtLoc r.standard_charge_min code).1,
      (formatPrice cmsRate fmtLoc r.standard_charge_min code).2⟩] else []) ++
  (if presentJS r.standard_charge_max then
    [⟨"Maximum", (formatPrice cmsRate fmtLoc r.standard_charge_max code).1,
      (formatPrice cmsRate fmtLoc r.standard_charge_max code).2⟩] else [])

/-- A row of `hospitals.csv` as `go` uses it: coordinates are `none` when
non-finite (`isFinite` fails), plus the chargemaster path. -/
structure Hospital where
  id : ℕ
  lat : Option ℚ
  lon : Option ℚ
  json_path : String
deriving DecidableEq

/-- `isFinite(h.lon) && isFinite(h.lat)`. -/
def finiteCoords (h : Hospital) : Bool := h.lon.isSome && h.lat.isSome

/-- The candidate set `nearby` computed by `go` (lines 1077-1091): in
500-plus mode every hospital with finite coordinates; otherwise those
whose great-circle distance to the ZIP center is at most `miles`. `dist`
abstracts `h ↦ gcMiles(center, h.ll)` for the fixed center. -/
def goRadiusFilter (dist : Hospital → ℚ) (hospitals : List Hospital)
    (miles : ℚ) : List Hospital :=
  if 500 ≤ miles then hospitals.filter (fun h => finiteCoords h)
  else hospitals.filter (fun h => finiteCoords h && decide (dist h ≤ miles))

/-- JavaScript `s.trim()`: drop leading and trailing whitespace. (Written
out on the character list rather than through `String.trim` so that it
evaluates by kernel reduction.) -/
def jsTrim (s : String) : String :=
  String.mk (((s.data.dropWhile Char.isWhitespace).reverse.dropWhile
    Char.isWhitespace).reverse)

/-- `('' + s).trim().padStart(5, '0')` tail: left-pad the (already
trimmed) string with '0' to length 5. -/
def padStart5 (s : String) : String :=
  if 5 ≤ s.length then s
  else String.mk (List.replicate (5 - s.length) '0') ++ s

/-- `s.slice(-5)`: the last five characters (the whole string when it is
shorter). -/
def lastFive (s : String) : String :=
  String.mk (s.data.drop (s.length - 5))

/-- The ZIP normalization of `go` (lines 1054-1055):
`($zip.value || "").trim().padStart(5, '0').slice(-5)`. -/
def normalizeZip (raw : String) : String :=
  lastFive (padStart5 (jsTrim raw))

/-- The pre-flight and radius-filter part of `go` (lines 1053-1091):
`none` models an early return (unknown ZIP, or no hospital index);
otherwise the candidate list is the radius filter's output. `zipTable`
models `ZIP.has`. -/
def go (dist : Hospital → ℚ) (zipTable : String → Bool)
    (hospitals : List Hospital) (rawZip : String) (miles : ℚ) :
    Option (List Hospital) :=
  let zip := normalizeZip rawZip
  if !zipTable zip then none
  else if hospitals.isEmpty then none
  else some (goRadiusFilter dist hospitals miles)

/-! Concrete sample data used by witnesses and counterexamples. -/

/-- A record whose estimated amount is absent but whose standard-charge
minimum is 100: its sort key under `queryHospitalJSON`'s comparator is 0,
while its effective amount is 100. -/
def sampleRecA : PriceRecord :=
  ⟨some "MRI", some "70551", none, none, none,
   .undef, .undef, .undef, .num 100, .undef⟩

/-- A record with estimated amount 50: sort key 50, effective amount 50. -/
def sampleRecB : PriceRecord :=
  ⟨some "MRI", some "70551", none, none, none,
   .num 50, .undef, .undef, .undef, .undef⟩

/-- A record whose payer name carries a leading blank. -/
def sampleRecPad : PriceRecord :=
  ⟨some "MRI", some "70551", none, some " Aetna", none,
   .num 50, .undef, .undef, .undef, .undef⟩

/-- A transport that serves one chargemaster file of two records. -/
def netOneFile : String → Option (List (Option PriceRecord)) :=
  fun p => if p = "data/h.json" then some [some sampleRecA, some sampleRecB] else none

/-- A transport on which every fetch fails. -/
def netFailAll : String → Option (List (Option PriceRecord)) :=
  fun _ => none

/-- A compiler on which every pattern is syntactically invalid
(`new RegExp` throws). -/
def compileInvalid : String → Option (String → Bool) := fun _ => none

/-- A compiler whose (valid) expressions match exactly the string "MRI". -/
def compileIsMRI : String → Option (String → Bool) :=
  fun _ => some (fun s => s == "MRI")

/-- A compiler whose (valid) expressions match nothing. -/
def compileNever : String → Option (String → Bool) :=
  fun _ => some (fun _ => false)

/-! Helper lemmas. -/

/-- A JavaScript `||` chain over numeric coercions picks the first
non-zero numeric entry. -/
theorem jsOrZero_eq_firstNonZeroNumeric (l : List JVal) :
    jsOrZero l = firstNonZeroNumeric l := by
  induction l with
  | nil => rfl
  | cons v rest ih =>
    simp only [jsOrZero, firstNonZeroNumeric, jsOr, truthyNum]
    cases h : toNumPlus v with
    | none => simpa using ih
    | some q =>
      by_cases hq : q = 0
      · subst hq; simpa using ih
      · simp [hq]

/-- A JavaScript `||` chain over numeric coercions yields 0 exactly when
every entry is NaN-like or zero. -/
theorem jsOrZero_eq_zero_iff (l : List JVal) :
    jsOrZero l = 0 ↔ ∀ v ∈ l, toNumPlus v = none ∨ toNumPlus v = some 0 := by
  induction l with
  | nil => simp [jsOrZero]
  | cons v rest ih =>
    simp only [jsOrZero, jsOr, truthyNum]
    cases h : toNumPlus v with
    | none => simp [h, ih]
    | some q =>
      by_cases hq : q = 0
      · subst hq; simp [h, ih]
      · simp [hq, h]

/-- The characters of a concatenation of strings. -/
theorem data_append (x y : String) : (x ++ y).data = x.data ++ y.data := rfl

/-- The characters of `padStart5`: left padding with '0' up to length 5. -/
theorem padStart5_data (s : String) :
    (padStart5 s).data = List.replicate (5 - s.length) '0' ++ s.data := by
  unfold padStart5
  by_cases h : 5 ≤ s.length
  · simp [h, Nat.sub_eq_zero_of_le h]
  · simp [h, data_append]

/-- `padStart5` pads exactly to length 5 (or keeps a longer string). -/
theorem padStart5_length (s : String) :
    (padStart5 s).length = max 5 s.length := by
  have : (padStart5 s).length = (padStart5 s).data.length := rfl
  rw [this, padStart5_data]
  simp only [List.length_append, List.length_replicate]
  have : s.data.length = s.length := rfl
  omega

/-- `lastFive` keeps at most five characters. -/
theorem lastFive_length (s : String) :
    (lastFive s).length = s.length - (s.length - 5) := by
  have : (lastFive s).length = (s.data.drop (s.length - 5)).length := rfl
  rw [this, List.length_drop]
  rfl

/-! Claim theorems. -/

/-- C7: `amountOf` returns the first non-zero numeric field in the
precedence order estimated amount, standard-charge-dollar, gross,
minimum, maximum, and returns 0 exactly when every field is absent,
null, zero, or non-numeric (a present-but-zero field is treated the same
as an absent one). -/
theorem amountOf_first_nonzero_C7 (r : PriceRecord) :
    amountOf r = firstNonZeroNumeric (amountFields r)
    ∧ (amountOf r = 0 ↔
        ∀ v ∈ amountFields r, toNumPlus v = none ∨ toNumPlus v = some 0) := by
  have he : amountOf r = jsOrZero (amountFields r) := rfl
  exact ⟨he.trans (jsOrZero_eq_firstNonZeroNumeric _),
    he ▸ jsOrZero_eq_zero_iff (amountFields r)⟩

/-- C3: for a radius below 500 the candidate set is exactly the hospitals
with finite coordinates whose distance to the center is at most the
radius, in input order (a sublist of the input); for a radius of 500 or
more it is exactly the hospitals with finite coordinates, with no
distance predicate applied. -/
theorem radius_filter_C3 (dist : Hospital → ℚ) (hs : List Hospital) (r : ℚ) :
    (goRadiusFilter dist hs r).Sublist hs
    ∧ (r < 500 → ∀ h, h ∈ goRadiusFilter dist hs r ↔
        h ∈ hs ∧ finiteCoords h = true ∧ dist h ≤ r)
    ∧ (500 ≤ r → ∀ h, h ∈ goRadiusFilter dist hs r ↔
        h ∈ hs ∧ finiteCoords h = true) := by
  unfold goRadiusFilter
  by_cases hr : (500 : ℚ) ≤ r
  · refine ⟨by simp [hr, List.filter_sublist], fun hlt => absurd hr (not_le.mpr hlt),
      fun _ h => ?_⟩
    simp [hr, List.mem_filter]
  · refine ⟨by simp [hr, List.filter_sublist], fun _ h => ?_,
      fun hge => absurd hge hr⟩
    simp [hr, List.mem_filter, and_assoc]

/-- C6 (amended): the record passes the payer filter iff no payer is
specified, or the record's payer name is present, non-empty, and equals
the given name exactly — case-sensitively and with no trimming. -/
theorem payer_filter_C6 (sel : Option String) (r : PriceRecord) :
    matchesPayer sel r = true ↔
      sel = none ∨ ∃ p, sel = some p ∧ r.payer_name = some p ∧ p ≠ "" := by
  cases sel with
  | none => simp [matchesPayer]
  | some p =>
    cases hpn : r.payer_name with
    | none => simp [matchesPayer, hpn]
    | some pn =>
      simp only [matchesPayer, hpn, Bool.and_eq_true, bne_iff_ne, beq_iff_eq]
      constructor
      · rintro ⟨hne, rfl⟩
        exact Or.inr ⟨pn, rfl, rfl, hne⟩
      · rintro (h | ⟨q, hq, hq', hne⟩)
        · exact absurd h (Option.some_ne_none p)
        · cases hq; cases hq'; exact ⟨hne, rfl⟩

/-- C6 counterexample: a record whose payer name is " Aetna" (leading
blank) does not pass the filter for the selected payer "Aetna", although
the two are equal after trimming — so the comparison is not performed
"after trimming" as the claim states. -/
theorem payer_filter_C6_cex :
    jsTrim " Aetna" = "Aetna"
    ∧ sampleRecPad.payer_name = some " Aetna"
    ∧ matchesPayer (some "Aetna") sampleRecPad = false := by decide

/-- C10: in every configuration mode the displayed code and the code used
for the Medicare ratio are the record's primary `code` field:
`getCodeField` reads only `code`, and the price table is unchanged by any
change to `rc_code`; pattern matching, by contrast, tests `rc_code` in
revenue-code mode and `code` in service mode. -/
theorem code_field_mode_C10 (cms : String → Option ℚ) (fmt : Option ℚ → String)
    (regex : String → Bool) (r : PriceRecord) (rc : Option String) :
    getCodeField r = r.code.getD ""
    ∧ getCodeField { r with rc_code := rc } = getCodeField r
    ∧ generatePriceTable cms fmt { r with rc_code := rc }
        = generatePriceTable cms fmt r
    ∧ matchesRegex regex ConfigType.revenueCode r
        = (regex (r.description.getD "") || regex (r.rc_code.getD ""))
    ∧ matchesRegex regex ConfigType.service r
        = (regex (r.description.getD "") || regex (r.code.getD "")) :=
  ⟨rfl, rfl, rfl, rfl, rfl⟩

/-- C9: the entered ZIP string is normalized by trimming, left-padding
with '0' to five characters and keeping the last five, so the normalized
string always has length 5; a short input is searched zero-padded, a long
input by its last five characters; and `go`'s unknown-ZIP abort decision
is taken on this normalized string. -/
theorem zip_normalization_C9 (raw : String) (zipTable : String → Bool)
    (dist : Hospital → ℚ) (hs : List Hospital) (miles : ℚ) :
    (normalizeZip raw).length = 5
    ∧ ((jsTrim raw).length ≤ 5 →
        normalizeZip raw
          = String.mk (List.replicate (5 - (jsTrim raw).length) '0'
              ++ (jsTrim raw).data))
    ∧ (5 < (jsTrim raw).length →
        normalizeZip raw
          = String.mk ((jsTrim raw).data.drop ((jsTrim raw).length - 5)))
    ∧ (zipTable (normalizeZip raw) = false → go dist zipTable hs raw miles = none)
    ∧ (zipTable (normalizeZip raw) = true → hs ≠ [] →
        go dist zipTable hs raw miles = some (goRadiusFilter dist hs miles)) := by
  have hnorm : normalizeZip raw = lastFive (padStart5 (jsTrim raw)) := rfl
  have hlen : (normalizeZip raw).length = 5 := by
    rw [hnorm, lastFive_length, padStart5_length]; omega
  refine ⟨hlen, fun hle => ?_, fun hgt => ?_, fun hz => ?_, fun hz hne => ?_⟩
  · have hp5 : (padStart5 (jsTrim raw)).length = 5 := by
      rw [padStart5_length]; omega
    have hdrop : (padStart5 (jsTrim raw)).length - 5 = 0 := by omega
    rw [hnorm]
    unfold lastFive
    rw [hdrop, List.drop_zero, padStart5_data]
  · have hp : padStart5 (jsTrim raw) = jsTrim raw := by
      unfold padStart5
      simp [Nat.le_of_lt hgt]
    rw [hnorm, hp]
    rfl
  · simp [go, hz]
  · simp [go, hz, hne]

/-- C1 (amended): a syntactically invalid search pattern is caught inside
`queryHospitalJSON` only after the chargemaster load (fetch included) has
run, and yields the empty hit list — the same value as zero hits — with
no error surfaced to the caller. -/
theorem invalid_pattern_C1 (net : String → Option (List (Option PriceRecord)))
    (compile : String → Option (String → Bool)) (mode : ConfigType)
    (st : CacheState) (path pat : String) (payer : Option String)
    (hpath : path ≠ "") (hpat : pat ≠ "") (hbad : compile pat = none) :
    queryHospitalJSON net compile mode st path pat payer
      = ([], (loadHospitalJSON net st path).2) := by
  simp [queryHospitalJSON, hpath, hpat, hbad]

/-- C1 witness: the amended statement at a concrete invalid pattern. -/
theorem invalid_pattern_C1_witness :
    queryHospitalJSON netOneFile compileInvalid ConfigType.service
        ⟨[], 0⟩ "data/h.json" "bad[" none
      = ([], (loadHospitalJSON netOneFile ⟨[], 0⟩ "data/h.json").2) :=
  invalid_pattern_C1 netOneFile compileInvalid ConfigType.service
    ⟨[], 0⟩ "data/h.json" "bad[" none (by decide) (by decide) rfl

/-- C1 counterexample: with an invalid pattern the fetch still happens
(the fetch counter moves from 0 to 1), and the caller receives `[]`,
byte-for-byte the result of a valid pattern that matches nothing — the
invalid pattern is neither surfaced before fetching nor distinguishable
from zero hits. -/
theorem invalid_pattern_C1_cex :
    (queryHospitalJSON netOneFile compileInvalid ConfigType.service
        ⟨[], 0⟩ "data/h.json" "bad[" none).1 = []
    ∧ (queryHospitalJSON netOneFile compileInvalid ConfigType.service
        ⟨[], 0⟩ "data/h.json" "bad[" none).2.fetchCount = 1
    ∧ (queryHospitalJSON netOneFile compileInvalid ConfigType.service
        ⟨[], 0⟩ "data/h.json" "bad[" none).1
      = (queryHospitalJSON netOneFile compileNever ConfigType.service
          ⟨[], 0⟩ "data/h.json" "ZZZ" none).1 := by decide

/-- C2 (amended): the hit list has at most 50 records; it is the first 50
matches in original file order, re-sorted (stably) in non-decreasing
order of the comparator key `parseFloat(estimated_amount) || 0` — not of
the full effective-amount fallback chain. -/
theorem hit_list_C2 (net : String → Option (List (Option PriceRecord)))
    (compile : String → Option (String → Bool)) (mode : ConfigType)
    (st : CacheState) (path pat : String) (payer : Option String)
    (regex : String → Bool)
    (hpath : path ≠ "") (hpat : pat ≠ "") (hc : compile pat = some regex) :
    (queryHospitalJSON net compile mode st path pat payer).1.length ≤ 50
    ∧ ((queryHospitalJSON net compile mode st path pat payer).1).Perm
        (((loadHospitalJSON net st path).1.filter
          (fun r => matchesRegex regex mode r && matchesPayer payer r)).take 50)
    ∧ List.Sorted byKey (queryHospitalJSON net compile mode st path pat payer).1 := by
  have hq : (queryHospitalJSON net compile mode st path pat payer).1
      = (((loadHospitalJSON net st path).1.filter
          (fun r => matchesRegex regex mode r && matchesPayer payer r)).take 50).insertionSort
          byKey := by
    simp [queryHospitalJSON, hpath, hpat, hc]
  rw [hq]
  refine ⟨?_, List.perm_insertionSort _ _, List.sorted_insertionSort _ _⟩
  rw [List.length_insertionSort]
  exact List.length_take_le _ _

/-- C2 witness: the amended statement at a concrete query. -/
theorem hit_list_C2_witness :
    (queryHospitalJSON netOneFile compileIsMRI ConfigType.service
        ⟨[], 0⟩ "data/h.json" "MRI" none).1.length ≤ 50
    ∧ ((queryHospitalJSON netOneFile compileIsMRI ConfigType.service
        ⟨[], 0⟩ "data/h.json" "MRI" none).1).Perm
        (((loadHospitalJSON netOneFile ⟨[], 0⟩ "data/h.json").1.filter
          (fun r => matchesRegex (fun s => s == "MRI") ConfigType.service r
            && matchesPayer none r)).take 50)
    ∧ List.Sorted byKey (queryHospitalJSON netOneFile compileIsMRI
        ConfigType.service ⟨[], 0⟩ "data/h.json" "MRI" none).1 :=
  hit_list_C2 netOneFile compileIsMRI ConfigType.service ⟨[], 0⟩
    "data/h.json" "MRI" none (fun s => s == "MRI") (by decide) (by decide) rfl

/-- C2 counterexample: a file whose first record has no estimated amount
but a standard-charge minimum of 100 (effective amount 100, sort key 0)
followed by a record of estimated amount 50 — the returned hit list keeps
that order, so it is not non-decreasing by effective amount. -/
theorem hit_list_C2_cex :
    (queryHospitalJSON netOneFile compileIsMRI ConfigType.service
        ⟨[], 0⟩ "data/h.json" "MRI" none).1 = [sampleRecA, sampleRecB]
    ∧ amountOf sampleRecA = 100
    ∧ amountOf sampleRecB = 50
    ∧ ¬ List.Sorted (fun a b => amountOf a ≤ amountOf b)
        ((queryHospitalJSON netOneFile compileIsMRI ConfigType.service
          ⟨[], 0⟩ "data/h.json" "MRI" none).1) := by decide

/-- C4: once a path's chargemaster has been loaded successfully, a second
load for the same path returns the very same pair (identical parsed
sequence, unchanged state, hence unchanged fetch count — no second
fetch), and in general any cache hit returns the cached sequence with the
state untouched, so a file is fetched and parsed at most once. -/
theorem cache_once_C4 (net : String → Option (List (Option PriceRecord)))
    (st : CacheState) (path : String) (lines : List (Option PriceRecord))
    (hne : path ≠ "") (hmiss : lookupCache st path = none)
    (hnet : net path = some lines) :
    (loadHospitalJSON net st path).2.fetchCount = st.fetchCount + 1
    ∧ loadHospitalJSON net (loadHospitalJSON net st path).2 path
        = loadHospitalJSON net st path
    ∧ (∀ st' d, lookupCache st' path = some d →
        loadHospitalJSON net st' path = (d, st')) := by
  have hhit : ∀ st' d, lookupCache st' path = some d →
      loadHospitalJSON net st' path = (d, st') := by
    intro st' d hd
    simp [loadHospitalJSON, hne, hd]
  have h1 : loadHospitalJSON net st path
      = (lines.filterMap id,
         ⟨(path, lines.filterMap id) :: st.cache, st.fetchCount + 1⟩) := by
    simp [loadHospitalJSON, hne, hmiss, hnet]
  refine ⟨by rw [h1], ?_, hhit⟩
  rw [h1]
  exact hhit _ _ (by simp [lookupCache])

/-- C4 witness: the cache property at a concrete path and transport. -/
theorem cache_once_C4_witness :
    (loadHospitalJSON netOneFile ⟨[], 0⟩ "data/h.json").2.fetchCount = 0 + 1
    ∧ loadHospitalJSON netOneFile
        (loadHospitalJSON netOneFile ⟨[], 0⟩ "data/h.json").2 "data/h.json"
        = loadHospitalJSON netOneFile ⟨[], 0⟩ "data/h.json"
    ∧ (∀ st' d, lookupCache st' "data/h.json" = some d →
        loadHospitalJSON netOneFile st' "data/h.json" = (d, st')) :=
  cache_once_C4 netOneFile ⟨[], 0⟩ "data/h.json"
    [some sampleRecA, some sampleRecB] (by decide) rfl rfl

/-- C5: a failed fetch returns the empty sequence, counts one fetch, and
stores nothing in the cache, so a later call for the same path fetches
again (the counter reaches two); an empty path returns the empty sequence
with the state — fetch counter included — untouched, i.e. without I/O. -/
theorem soft_fail_C5 (net : String → Option (List (Option PriceRecord)))
    (st : CacheState) (path : String)
    (hne : path ≠ "") (hmiss : lookupCache st path = none)
    (hfail : net path = none) :
    loadHospitalJSON net st path = ([], ⟨st.cache, st.fetchCount + 1⟩)
    ∧ lookupCache (loadHospitalJSON net st path).2 path = none
    ∧ (loadHospitalJSON net (loadHospitalJSON net st path).2 path).2.fetchCount
        = st.fetchCount + 2
    ∧ (∀ st'' : CacheState, loadHospitalJSON net st'' "" = ([], st'')) := by
  have h1 : loadHospitalJSON net st path = ([], ⟨st.cache, st.fetchCount + 1⟩) := by
    simp [loadHospitalJSON, hne, hmiss, hfail]
  have h2 : lookupCache (⟨st.cache, st.fetchCount + 1⟩ : CacheState) path = none := by
    simpa [lookupCache] using hmiss
  refine ⟨h1, by rw [h1]; exact h2, ?_, fun st'' => by simp [loadHospitalJSON]⟩
  rw [h1]
  have h3 : loadHospitalJSON net (⟨st.cache, st.fetchCount + 1⟩ : CacheState) path
      = ([], ⟨st.cache, st.fetchCount + 1 + 1⟩) := by
    simp [loadHospitalJSON, hne, h2, hfail]
  rw [h3]

/-- C5 witness: the soft-fail property at a concrete failing transport. -/
theorem soft_fail_C5_witness :
    loadHospitalJSON netFailAll ⟨[], 0⟩ "data/h.json" = ([], ⟨[], 0 + 1⟩)
    ∧ lookupCache (loadHospitalJSON netFailAll ⟨[], 0⟩ "data/h.json").2
        "data/h.json" = none
    ∧ (loadHospitalJSON netFailAll
        (loadHospitalJSON netFailAll ⟨[], 0⟩ "data/h.json").2
        "data/h.json").2.fetchCount = 0 + 2
    ∧ (∀ st'' : CacheState, loadHospitalJSON netFailAll st'' "" = ([], st'')) :=
  soft_fail_C5 netFailAll ⟨[], 0⟩ "data/h.json" (by decide) rfl rfl

/-- C8 (amended): a falsy amount (0, NaN, null, undefined) yields price
"N/A" and ratio "N/A" regardless of code; otherwise the ratio is the
two-decimal multiplier string exactly when the code is non-empty and its
Medicare rate is strictly positive, and the string "N/A" — not
"unknown" — when the rate is absent or not strictly positive. -/
theorem format_price_C8 (cms : String → Option ℚ) (fmt : Option ℚ → String)
    (amount : JVal) (code : String) :
    (jsFalsy amount = true → formatPrice cms fmt amount code = ("N/A", "N/A"))
    ∧ (jsFalsy amount = false → code ≠ "" → 0 < (cms code).getD 0 →
        (formatPrice cms fmt amount code).2
          = toFixed2J (jsDiv (toNumPlus amount) ((cms code).getD 0)) ++ "x")
    ∧ (jsFalsy amount = false → (code = "" ∨ (cms code).getD 0 ≤ 0) →
        (formatPrice cms fmt amount code).2 = "N/A") := by
  refine ⟨fun hf => by simp [formatPrice, hf], fun hf hc hr => ?_, fun hf hd => ?_⟩
  · simp [formatPrice, hf, hc, hr]
  · rcases hd with hcode | hrate
    · simp [formatPrice, hf, hcode]
    · simp [formatPrice, hf, not_lt.mpr hrate]

/-- C8 counterexample: a non-zero amount whose code has no Medicare rate
gets the ratio string "N/A", not "unknown". -/
theorem format_price_C8_cex :
    (formatPrice (fun _ => none) (fun _ => "") (JVal.num 100) "70551").2 = "N/A"
    ∧ "N/A" ≠ "unknown" := by decide

end CLEAR
